import Mathlib

/-!
Shallow embedding of `helga_rbreview.py` (helga-codereview plugin).

Python strings are modelled as `List Char`; the Python string operations
used by the plugin (`str.partition`, `str.split`, `int(...)`,
`os.path.splitext`, `str.lower`, `str.format` with `{0}` holes) are
embedded below.  Fallible Python code (statements that can raise) is
modelled with `Except`; the distinction between `ValueError` (caught by
the plugin) and `IndexError` (not caught) is kept explicit.
-/

namespace Helga

/-- Python `s.partition(sep)` for a one-character separator:
returns `(head, sep-or-empty, tail)` splitting at the first occurrence;
when the separator does not occur, `(s, "", "")`. -/
def partitionChar (sep : Char) : List Char → List Char × List Char × List Char
  | [] => ([], [], [])
  | c :: cs =>
    if c = sep then ([], [sep], cs)
    else
      let r := partitionChar sep cs
      (c :: r.1, r.2.1, r.2.2)

/-- Python `s.split(sep)` for a one-character separator:
`"".split(c) = [""]`, separators delimit possibly-empty fields. -/
def splitChar (sep : Char) : List Char → List (List Char)
  | [] => [[]]
  | c :: cs =>
    if c = sep then [] :: splitChar sep cs
    else
      match splitChar sep cs with
      | [] => [[c]]
      | x :: xs => (c :: x) :: xs

/-- Decimal value of a list of digit characters, most significant first. -/
def digitsVal (s : List Char) : Nat :=
  s.foldl (fun acc c => acc * 10 + (c.toNat - '0'.toNat)) 0

/-- Python `s.strip()` restricted to ASCII whitespace. -/
def pyStrip (s : List Char) : List Char :=
  ((s.dropWhile (·.isWhitespace)).reverse.dropWhile (·.isWhitespace)).reverse

/-- Python 2 `int(s)` on a string: optional surrounding whitespace, an
optional sign, then one or more decimal digits; anything else raises
`ValueError`, modelled as `none`. -/
def pyInt (s : List Char) : Option Int :=
  let t := pyStrip s
  match t with
  | '-' :: rest =>
    if rest ≠ [] ∧ rest.all (·.isDigit) then some (-(digitsVal rest : Int)) else none
  | '+' :: rest =>
    if rest ≠ [] ∧ rest.all (·.isDigit) then some (digitsVal rest : Int) else none
  | rest =>
    if rest ≠ [] ∧ rest.all (·.isDigit) then some (digitsVal rest : Int) else none

/-- Python `str(i)` for an integer. -/
def intStr (i : Int) : List Char :=
  if i < 0 then '-' :: Nat.toDigits 10 i.natAbs else Nat.toDigits 10 i.natAbs

/-- Python `sep.join(xs)`. -/
def joinSep (sep : List Char) : List (List Char) → List Char
  | [] => []
  | [x] => x
  | x :: xs => x ++ sep ++ joinSep sep xs

/-- Python `s.lower()` (ASCII). -/
def lowerStr (s : List Char) : List Char :=
  s.map Char.toLower

/-- Index of the last occurrence of `c` in `s`, Python `s.rfind(c)`:
`-1` when absent. -/
def rfindChar (c : Char) (s : List Char) : Int :=
  s.enum.foldl (fun acc p => if p.2 = c then (p.1 : Int) else acc) (-1)

/-- `posixpath.splitext(p)[1]`: the extension starts at the last dot,
provided that dot comes after the last path separator and the basename
is not made of leading dots only up to it (so `".py"` has no extension). -/
def splitextExt (p : List Char) : List Char :=
  let sepIndex := rfindChar '/' p
  let dotIndex := rfindChar '.' p
  if sepIndex < dotIndex then
    let stem := (p.drop (sepIndex + 1).toNat).take (dotIndex - sepIndex - 1).toNat
    if stem.any (· ≠ '.') then p.drop dotIndex.toNat else []
  else []

/-! ## Data model

Reviewboard diff data: each chunk carries rows; the plugin reads
`row[0]` (the diff-relative coordinate) and `row[4]` (the absolute
post-patch line number), so a row is embedded by those two fields. -/

structure Row where
  row0 : Int
  row4 : Int
  deriving DecidableEq, Repr

structure Chunk where
  lines : List Row
  deriving DecidableEq, Repr

structure DiffData where
  chunks : List Chunk
  deriving DecidableEq, Repr

/-- One pass of the `for row in chunk.lines: if row[4] == lineno:
lineno = row[0]; break` inner loop of `_flake8`: the first row of the
chunk whose `row[4]` equals the current value rewrites it to that
row's `row[0]`; otherwise the value is unchanged. -/
def normalizeChunk (lineno : Int) (c : Chunk) : Int :=
  match c.lines.find? (fun r => r.row4 = lineno) with
  | some r => r.row0
  | none => lineno

/-- The full `for chunk in diff_data.chunks` loop of `_flake8`
(lines 134-138): the `break` leaves only the inner loop, so every
chunk is visited, each seeing the value as rewritten so far. -/
def normalizeLine (dd : DiffData) (lineno : Int) : Int :=
  dd.chunks.foldl normalizeChunk lineno

/-- A reviewboard file object, restricted to the attributes the plugin
reads.  `dest_file := none` models a file record whose path attribute
is absent or unreadable (accessing it raises, which `_is_python`
catches). -/
structure DiffFile where
  dest_file : Option (List Char)
  id : Int
  diff_data : DiffData
  deriving DecidableEq, Repr

/-- `_is_python` (lines 86-94): extension of the destination path,
lowercased, equals `.py`; any failure to read the path or split the
extension yields `false`. -/
def is_python (f : DiffFile) : Bool :=
  match f.dest_file with
  | none => false
  | some p => lowerStr (splitextExt p) = ".py".toList

/-- One entry of the `errors` list built by `_flake8`
(lines 140-146). -/
structure Finding where
  filediff_id : Int
  first_line : Int
  num_lines : Int
  text : List Char
  issue_opened : Bool
  deriving DecidableEq, Repr

/-- `'Column {0}: {1}'.format(colno, msg)` (line 144). -/
def columnText (colno : Int) (msg : List Char) : List Char :=
  "Column ".toList ++ intStr colno ++ ": ".toList ++ msg

/-- The leading diagnostic code of an output line, as `_flake8`
computes it (lines 122-123): everything after the first space,
cut again at its first space. -/
def leadingCode (line : List Char) : List Char :=
  (partitionChar ' ' (partitionChar ' ' line).2.2).1

/-- The exceptions relevant to one iteration of the `_flake8` parse
loop.  `ValueError` is caught by the loop (line 129); `IndexError`
is not and propagates out of `_flake8`. -/
inductive PyErr where
  | indexError
  deriving DecidableEq, Repr

/-- One iteration of the `for line in stdout.splitlines()` loop of
`_flake8` (lines 121-146): `.ok none` is `continue` (a caught
`ValueError`), `.error .indexError` an uncaught `IndexError` from
`info[1]` / `info[2]`, and `.ok (some f)` an appended finding. -/
def processLine (strict : List (List Char)) (fileId : Int) (dd : DiffData)
    (line : List Char) : Except PyErr (Option Finding) :=
  let location := (partitionChar ' ' line).1
  let msg := (partitionChar ' ' line).2.2
  let code := (partitionChar ' ' msg).1
  let info := splitChar ':' location
  match info.get? 1 with
  | none => .error .indexError
  | some s1 =>
    match pyInt s1 with
    | none => .ok none
    | some lineno =>
      match info.get? 2 with
      | none => .error .indexError
      | some s2 =>
        match pyInt s2 with
        | none => .ok none
        | some colno =>
          .ok (some
            { filediff_id := fileId
              first_line := normalizeLine dd lineno
              num_lines := 1
              text := columnText colno msg
              issue_opened := decide (code ∈ strict) })

/-- The whole parse loop of `_flake8` over the analyzer's output
lines: findings accumulate in order, a skipped line contributes
nothing, and an uncaught exception aborts the loop, discarding the
findings gathered so far (the local `errors` list never escapes). -/
def flake8Findings (strict : List (List Char)) (fileId : Int) (dd : DiffData) :
    List (List Char) → Except PyErr (List Finding)
  | [] => .ok []
  | l :: rest =>
    match processLine strict fileId dd l with
    | .error e => .error e
    | .ok none => flake8Findings strict fileId dd rest
    | .ok (some f) =>
      match flake8Findings strict fileId dd rest with
      | .error e => .error e
      | .ok fs => .ok (f :: fs)

/-! ## Review orchestrator (`do_review`, lines 151-199) -/

/-- The `comments` accumulation loop of `do_review` (lines 165-170):
one entry per eligible file, each either the file's finding list or an
exception; a file whose analysis raised contributes nothing (the
`except` logs and moves on before `extend` runs). -/
def gatherComments (results : List (Except PyErr (List Finding))) : List Finding :=
  results.foldl
    (fun acc r =>
      match r with
      | .ok fs => acc ++ fs
      | .error _ => acc)
    []

/-- Python `xs[:n]` for an arbitrary integer bound. -/
def pySliceTo (n : Int) (xs : List α) : List α :=
  if n < 0 then xs.take (xs.length - (-n).toNat) else xs.take n.toNat

/-- `comments[:getattr(settings, 'CODEREVIEW_COMMENT_LIMIT', len(comments))]`
(line 174): `none` models an unconfigured limit. -/
def applyLimit (cap : Option Int) (comments : List Finding) : List Finding :=
  match cap with
  | none => comments.take comments.length
  | some n => pySliceTo n comments

/-- `body_top` of the clean branch (line 179). -/
def passedBody : List Char :=
  "This code has passed flake8 checks. :)".toList

/-- `'Showing first {0} errors'.format(len(comments))` (line 185). -/
def showingFirstText (n : Int) : List Char :=
  "Showing first ".toList ++ intStr n ++ " errors".toList

/-- `'See below'` (line 187). -/
def seeBelowText : List Char :=
  "See below".toList

/-- `'This code has not passed flake8 checks. {0}'.format(extra)` (line 190). -/
def notPassedBody (extra : List Char) : List Char :=
  "This code has not passed flake8 checks. ".toList ++ extra

/-- One write against the review server made by `do_review`. -/
inductive Write where
  | createReview (body_top : List Char) (publicFlag : Bool) (ship_it : Bool)
  | createComment (f : Finding)
  | publish
  deriving DecidableEq, Repr

/-- The decision and submission tail of `do_review` (lines 172-199) as
the sequence of review-server writes it performs, starting from the
per-file analysis results of the eligible files.  The clean branch
(lines 177-182) creates one already-public review with
`ship_it=False`; the flagged branch creates a draft review, attaches
each surviving comment, then publishes. -/
def do_review_writes (cap : Option Int) (results : List (Except PyErr (List Finding))) :
    List Write :=
  let comments := gatherComments results
  let total := comments.length
  let capped := applyLimit cap comments
  if capped = [] then
    [Write.createReview passedBody true false]
  else
    let extra := if capped.length < total then showingFirstText capped.length else seeBelowText
    Write.createReview (notPassedBody extra) false false ::
      capped.map Write.createComment ++ [Write.publish]

/-! ## Batch coordinator (`process_review_requests`, lines 51-83) -/

/-- The per-id loop (lines 72-77): `do_review` outcomes are abstracted
by `behavior`; an id whose review raised is appended to `errors`,
every id is attempted. -/
def reviewLoop (behavior : Int → Except PyErr Unit) : List Int → List Int
  | [] => []
  | id :: rest =>
    match behavior id with
    | .ok _ => reviewLoop behavior rest
    | .error _ => id :: reviewLoop behavior rest

/-- `', '.join(map(lambda id: 'cr{0}'.format(id), errors))` (line 80). -/
def crList (ids : List Int) : List Char :=
  joinSep ", ".toList (ids.map (fun id => "cr".toList ++ intStr id))

/-- The single completion message (lines 79-83). -/
def batchMessage (nick : List Char) (errors : List Int) : List Char :=
  if errors.isEmpty then
    "Codereview complete ".toList ++ nick
  else
    "Codereview complete ".toList ++ nick ++
      ", but I was unable to review: ".toList ++ crList errors

/-! ## Concrete example inputs used by witnesses and counterexamples -/

/-- The colon-separated location fields of an analyzer output line:
`line.partition(' ')[0].split(':')` (lines 122-124). -/
def locFields (line : List Char) : List (List Char) :=
  splitChar ':' (partitionChar ' ' line).1

/-- A chunk table whose first chunk maps absolute line 5 to row 3 and
whose second chunk maps 3 (the value just produced) to 99. -/
def exDiffData : DiffData :=
  ⟨[⟨[⟨3, 5⟩]⟩, ⟨[⟨99, 3⟩]⟩]⟩

/-- A sample finding, as `_flake8` would build for `x.py:4:2: E501 line
too long` with an empty chunk table. -/
def exFinding : Finding :=
  ⟨7, 4, 1, "Column 2: E501 line too long".toList, false⟩

/-- A batch behavior where review request 2 raises and all others
succeed. -/
def exBehavior : Int → Except PyErr Unit :=
  fun id => if id = 2 then .error .indexError else .ok ()

/-! ## Line mapper lemmas -/

theorem normalizeChunk_of_no_match (l : Int) (c : Chunk)
    (h : ∀ r ∈ c.lines, r.row4 ≠ l) : normalizeChunk l c = l := by
  have hf : c.lines.find? (fun r => r.row4 = l) = none :=
    List.find?_eq_none.mpr (fun r hr => by simpa using h r hr)
  simp [normalizeChunk, hf]

theorem foldl_normalizeChunk_of_no_match (l : Int) (cs : List Chunk)
    (h : ∀ c ∈ cs, ∀ r ∈ c.lines, r.row4 ≠ l) :
    cs.foldl normalizeChunk l = l := by
  induction cs with
  | nil => rfl
  | cons c cs ih =>
    rw [List.foldl_cons, normalizeChunk_of_no_match l c (h c (by simp))]
    exact ih (fun c' hc' => h c' (by simp [hc']))

theorem normalizeChunk_first_match (l : Int) (c : Chunk) (rs₁ rs₂ : List Row) (r : Row)
    (hc : c.lines = rs₁ ++ r :: rs₂) (h₁ : ∀ x ∈ rs₁, x.row4 ≠ l) (hr : r.row4 = l) :
    normalizeChunk l c = r.row0 := by
  have h₁' : rs₁.find? (fun x => x.row4 = l) = none :=
    List.find?_eq_none.mpr (fun x hx => by simpa using h₁ x hx)
  have hf : c.lines.find? (fun x => x.row4 = l) = some r := by
    rw [hc, List.find?_append, h₁', List.find?_cons_of_pos _ (by simpa using hr)]
    rfl
  simp [normalizeChunk, hf]

/-- C2 counterexample: in `exDiffData` the first (and only) row whose
recorded absolute line equals the target 5 is `⟨3, 5⟩` in the first
chunk, so the claim says the mapping returns 3; but the chunk loop
continues into the second chunk carrying the updated value 3, whose row
`⟨99, 3⟩` rewrites it again, and the code returns 99. -/
theorem C2_counterexample :
    normalizeLine exDiffData 5 = 99 ∧ normalizeChunk 5 ⟨[⟨3, 5⟩]⟩ = 3 ∧ (99 : Int) ≠ 3 := by
  refine ⟨by decide, by decide, by decide⟩

/-- C2 (amended): `mapLine` scans chunks in order, threading the
current value: within one chunk only the first row whose recorded
absolute-line field equals the current value applies (later rows of
that chunk are ignored), but the scan continues into later chunks with
the updated value.  Hence (1) when no row of any chunk matches the
target, the input is returned unchanged; and (2) the first matching
row in chunk-then-row order is authoritative provided no row of a
later chunk records the coordinate it produced. -/
theorem C2_mapLine :
    (∀ (dd : DiffData) (l : Int),
        (∀ c ∈ dd.chunks, ∀ r ∈ c.lines, r.row4 ≠ l) → normalizeLine dd l = l) ∧
    (∀ (dd : DiffData) (l : Int) (pre post : List Chunk) (c : Chunk)
        (rs₁ rs₂ : List Row) (r : Row),
        dd.chunks = pre ++ c :: post →
        c.lines = rs₁ ++ r :: rs₂ →
        (∀ c' ∈ pre, ∀ x ∈ c'.lines, x.row4 ≠ l) →
        (∀ x ∈ rs₁, x.row4 ≠ l) →
        r.row4 = l →
        (∀ c' ∈ post, ∀ x ∈ c'.lines, x.row4 ≠ r.row0) →
        normalizeLine dd l = r.row0) := by
  constructor
  · intro dd l h
    exact foldl_normalizeChunk_of_no_match l dd.chunks h
  · intro dd l pre post c rs₁ rs₂ r hdd hc hpre hrs₁ hr hpost
    unfold normalizeLine
    rw [hdd, List.foldl_append, foldl_normalizeChunk_of_no_match l pre hpre,
      List.foldl_cons, normalizeChunk_first_match l c rs₁ rs₂ r hc hrs₁ hr]
    exact foldl_normalizeChunk_of_no_match r.row0 post hpost

/-- C2 witness: the no-match fallback returns the input, and a lone
matching row in a single-chunk table maps 5 to its diff-relative
coordinate 3. -/
theorem C2_mapLine_witness :
    normalizeLine ⟨[⟨[⟨1, 2⟩]⟩]⟩ 7 = 7 ∧ normalizeLine ⟨[⟨[⟨3, 5⟩]⟩]⟩ 5 = 3 := by
  refine ⟨C2_mapLine.1 _ 7 (by decide), ?_⟩
  exact C2_mapLine.2 ⟨[⟨[⟨3, 5⟩]⟩]⟩ 5 [] [] ⟨[⟨3, 5⟩]⟩ [] [] ⟨3, 5⟩ rfl rfl
    (by decide) (by decide) (by decide) (by decide)

/-! ## File selector -/

/-- C7: `_is_python` is total and returns `true` exactly when the
destination path is present and its `splitext` extension, lowercased,
is `.py`.  In particular `Foo.PY` is eligible, `foo.pyc` is not, a
file whose path attribute is absent is not, and (hidden-file rule of
`splitext`) a bare `.py` has no extension and is not eligible. -/
theorem C7_is_python :
    (∀ f : DiffFile,
        is_python f = true ↔
          ∃ p, f.dest_file = some p ∧ lowerStr (splitextExt p) = ".py".toList) ∧
    is_python ⟨some "Foo.PY".toList, 0, ⟨[]⟩⟩ = true ∧
    is_python ⟨some "foo.pyc".toList, 0, ⟨[]⟩⟩ = false ∧
    is_python ⟨none, 0, ⟨[]⟩⟩ = false ∧
    is_python ⟨some ".py".toList, 0, ⟨[]⟩⟩ = false := by
  refine ⟨?_, by decide, by decide, by decide, by decide⟩
  intro f
  match hf : f.dest_file with
  | none => simp [is_python, hf]
  | some p => simp [is_python, hf]

/-! ## Analyzer runner: severity classification -/

/-- C6: every finding built by the parse loop has `issue_opened = true`
exactly when the line's leading diagnostic code (the text after the
first space, cut at its next space) is in the configured strict-code
set, and in particular with the default empty set every finding has
`issue_opened = false`. -/
theorem C6_issue_opened :
    ∀ (strict : List (List Char)) (fileId : Int) (dd : DiffData) (line : List Char)
      (f : Finding),
      processLine strict fileId dd line = .ok (some f) →
      (f.issue_opened = true ↔ leadingCode line ∈ strict) ∧
        (strict = [] → f.issue_opened = false) := by
  intro strict fileId dd line f h
  simp only [processLine] at h
  split at h
  · exact absurd h (by simp)
  split at h
  · simp only [Except.ok.injEq] at h
    exact absurd h (by simp)
  split at h
  · exact absurd h (by simp)
  split at h
  · simp only [Except.ok.injEq] at h
    exact absurd h (by simp)
  simp only [Except.ok.injEq, Option.some.injEq] at h
  subst h
  constructor
  · simp [leadingCode]
  · intro hs
    subst hs
    simp

/-- C6 witness: on `f.py:3:1: E999 bad` with strict set `{E999}` the
parse loop yields a finding, and its `issue_opened` flag matches
membership of the leading code `E999` in the strict set. -/
theorem C6_issue_opened_witness :
    ((⟨7, 3, 1, "Column 1: E999 bad".toList, true⟩ : Finding).issue_opened = true ↔
        leadingCode "f.py:3:1: E999 bad".toList ∈ ["E999".toList]) ∧
      leadingCode "f.py:3:1: E999 bad".toList ∈ ["E999".toList] :=
  ⟨(C6_issue_opened ["E999".toList] 7 ⟨[]⟩ "f.py:3:1: E999 bad".toList
      ⟨7, 3, 1, "Column 1: E999 bad".toList, true⟩ rfl).1,
    by decide⟩

/-! ## Analyzer runner: malformed output lines -/

/-- C3 counterexample: the output line `warning` has no colon-separated
location fields, so `info[1]` raises an `IndexError`, which the
`except ValueError` clause does not catch: the parse loop aborts with
an error instead of skipping the line. -/
theorem C3_counterexample :
    flake8Findings [] 0 ⟨[]⟩ ["warning".toList] = .error PyErr.indexError ∧
      Except.error PyErr.indexError ≠ (Except.ok [] : Except PyErr (List Finding)) :=
  ⟨rfl, fun h => Except.noConfusion h⟩

/-- C3 (amended): a line whose second or third colon-separated location
field is present but not an integer is skipped (the `ValueError` is
caught) and parsing continues with the remaining lines; but a line with
too few colon-separated fields for `info[1]` or `info[2]` to exist
raises an uncaught `IndexError` that aborts the file's parse loop. -/
theorem C3_malformed :
    (∀ (strict : List (List Char)) (fid : Int) (dd : DiffData) (line : List Char)
        (rest : List (List Char)) (s1 : List Char),
        (locFields line).get? 1 = some s1 → pyInt s1 = none →
        flake8Findings strict fid dd (line :: rest) = flake8Findings strict fid dd rest) ∧
    (∀ (strict : List (List Char)) (fid : Int) (dd : DiffData) (line : List Char)
        (rest : List (List Char)) (s1 : List Char) (n : Int) (s2 : List Char),
        (locFields line).get? 1 = some s1 → pyInt s1 = some n →
        (locFields line).get? 2 = some s2 → pyInt s2 = none →
        flake8Findings strict fid dd (line :: rest) = flake8Findings strict fid dd rest) ∧
    (∀ (strict : List (List Char)) (fid : Int) (dd : DiffData) (line : List Char)
        (rest : List (List Char)),
        (locFields line).get? 1 = none →
        flake8Findings strict fid dd (line :: rest) = .error PyErr.indexError) ∧
    (∀ (strict : List (List Char)) (fid : Int) (dd : DiffData) (line : List Char)
        (rest : List (List Char)) (s1 : List Char) (n : Int),
        (locFields line).get? 1 = some s1 → pyInt s1 = some n →
        (locFields line).get? 2 = none →
        flake8Findings strict fid dd (line :: rest) = .error PyErr.indexError) := by
  refine ⟨?_, ?_, ?_, ?_⟩
  · intro strict fid dd line rest s1 h1 h2
    simp only [locFields, List.get?_eq_getElem?] at h1
    simp [flake8Findings, processLine, h1, h2]
  · intro strict fid dd line rest s1 n s2 h1 h2 h3 h4
    simp only [locFields, List.get?_eq_getElem?] at h1 h3
    simp [flake8Findings, processLine, h1, h2, h3, h4]
  · intro strict fid dd line rest h1
    simp only [locFields, List.get?_eq_getElem?] at h1
    simp [flake8Findings, processLine, h1]
  · intro strict fid dd line rest s1 n h1 h2 h3
    simp only [locFields, List.get?_eq_getElem?] at h1 h3
    simp [flake8Findings, processLine, h1, h2, h3]

/-- C3 witness: `a:b: E1 m` (non-integer line field) and `a:1:c: E1 m`
(non-integer column field) are both skipped and parsing continues;
`a:5 E1 m` has an integer line field but no third location field and
aborts with the uncaught `IndexError`. -/
theorem C3_malformed_witness :
    flake8Findings [] 0 ⟨[]⟩ ["a:b: E1 m".toList] = flake8Findings [] 0 ⟨[]⟩ [] ∧
      flake8Findings [] 0 ⟨[]⟩ ["a:1:c: E1 m".toList] = flake8Findings [] 0 ⟨[]⟩ [] ∧
      flake8Findings [] 0 ⟨[]⟩ ["a:5 E1 m".toList] = .error PyErr.indexError :=
  ⟨C3_malformed.1 [] 0 ⟨[]⟩ "a:b: E1 m".toList [] "b".toList rfl rfl,
    C3_malformed.2.1 [] 0 ⟨[]⟩ "a:1:c: E1 m".toList [] "1".toList 1 "c".toList rfl rfl rfl rfl,
    C3_malformed.2.2.2 [] 0 ⟨[]⟩ "a:5 E1 m".toList [] "5".toList 5 rfl rfl rfl⟩

/-! ## Orchestrator lemmas -/

theorem applyLimit_nil (cap : Option Int) : applyLimit cap ([] : List Finding) = [] := by
  cases cap <;> simp [applyLimit, pySliceTo]

theorem applyLimit_none (cs : List Finding) : applyLimit none cs = cs := by
  simp [applyLimit]

theorem applyLimit_pos (n : Int) (hn : 1 ≤ n) (cs : List Finding) :
    applyLimit (some n) cs = cs.take n.toNat := by
  simp [applyLimit, pySliceTo, show ¬ n < 0 by omega]

theorem gatherComments_foldl (acc : List Finding) (results : List (Except PyErr (List Finding)))
    (h : ∀ r ∈ results, r = Except.error PyErr.indexError) :
    results.foldl
      (fun acc r => match r with | .ok fs => acc ++ fs | .error _ => acc) acc = acc := by
  induction results generalizing acc with
  | nil => rfl
  | cons r rest ih =>
    rw [List.foldl_cons, h r (by simp)]
    exact ih acc (fun r' hr' => h r' (by simp [hr']))

theorem gatherComments_of_all_error (results : List (Except PyErr (List Finding)))
    (h : ∀ r ∈ results, r = Except.error PyErr.indexError) :
    gatherComments results = [] :=
  gatherComments_foldl [] results h

theorem gatherComments_map_ok_nil (results : List (Except PyErr (List Finding))) :
    gatherComments (results.map fun _ => Except.ok []) = [] := by
  unfold gatherComments
  induction results with
  | nil => rfl
  | cons r rest ih => simpa using ih

theorem do_review_writes_of_gather_nil (cap : Option Int)
    (results : List (Except PyErr (List Finding))) (h : gatherComments results = []) :
    do_review_writes cap results = [Write.createReview passedBody true false] := by
  simp [do_review_writes, h, applyLimit_nil]

/-- C1 counterexample: with zero findings the orchestrator performs
exactly one write, a published review with the positive message — but
its `ship_it` flag is `False` (line 181), not `True` as claimed. -/
theorem C1_counterexample :
    do_review_writes none [] = [Write.createReview passedBody true false] ∧
      Write.createReview passedBody true false ≠ Write.createReview passedBody true true :=
  ⟨rfl, by decide⟩

/-- C1 (amended): whenever the eligible files yield zero findings in
total, the orchestrator performs exactly one review-server write: a
single review created already published (`public=True`) with the
positive top-line message, no attached diff comments — and
`ship_it=False`. -/
theorem C1_clean_review (cap : Option Int) (results : List (Except PyErr (List Finding)))
    (h : gatherComments results = []) :
    do_review_writes cap results = [Write.createReview passedBody true false] :=
  do_review_writes_of_gather_nil cap results h

/-- C1 witness: a review request with no eligible files at all. -/
theorem C1_clean_review_witness :
    do_review_writes none [] = [Write.createReview passedBody true false] :=
  C1_clean_review none [] rfl

/-- C4 counterexample: with a configured cap of 0 and one finding, the
pre-cap finding count is 1, yet the clean/ship-it branch is taken: the
cap does change which branch runs. -/
theorem C4_counterexample :
    do_review_writes (some 0) [Except.ok [exFinding]] =
        [Write.createReview passedBody true false] ∧
      gatherComments [Except.ok [exFinding]] ≠ [] :=
  ⟨rfl, by decide⟩

/-- C4 (amended): the clean branch is taken exactly when the
*post-cap* comment list is empty.  For an unconfigured cap, or any cap
of at least 1, that coincides with the pre-cap finding count being
zero, so only a cap of 0 (or a negative cap) can flip the branch. -/
theorem C4_branch :
    (∀ (cap : Option Int) (results : List (Except PyErr (List Finding))),
        do_review_writes cap results = [Write.createReview passedBody true false] ↔
          applyLimit cap (gatherComments results) = []) ∧
    (∀ (n : Int) (results : List (Except PyErr (List Finding))), 1 ≤ n →
        (applyLimit (some n) (gatherComments results) = [] ↔ gatherComments results = [])) ∧
    (∀ results : List (Except PyErr (List Finding)),
        applyLimit none (gatherComments results) = gatherComments results) := by
  refine ⟨?_, ?_, fun results => applyLimit_none _⟩
  · intro cap results
    simp only [do_review_writes]
    rcases hcap : applyLimit cap (gatherComments results) with _ | ⟨f, fs⟩ <;>
      simp [hcap]
  · intro n results hn
    rw [applyLimit_pos n hn]
    rw [List.take_eq_nil_iff]
    constructor
    · rintro (h | h)
      · omega
      · exact h
    · intro h
      exact Or.inr h

/-- C4 witness: with cap 1 and a single finding both sides of the
pre/post cap equivalence are nonempty, and the clean branch is not
taken. -/
theorem C4_branch_witness :
    (applyLimit (some 1) (gatherComments [Except.ok [exFinding]]) = [] ↔
        gatherComments [Except.ok [exFinding]] = []) ∧
      ¬ do_review_writes (some 1) [Except.ok [exFinding]] =
          [Write.createReview passedBody true false] := by
  refine ⟨C4_branch.2.1 1 [Except.ok [exFinding]] (by decide), ?_⟩
  rw [C4_branch.1 (some 1) [Except.ok [exFinding]]]
  decide

/-- C5 counterexample: with a configured cap of 0 and one finding
(`M = 1 > 0 = N`), the code does not attach 0 comments to a review
whose top line indicates truncation with count 0 — it submits the
clean "passed checks" review instead, whose message indicates no
truncation. -/
theorem C5_counterexample :
    do_review_writes (some 0) [Except.ok [exFinding]] =
        [Write.createReview passedBody true false] ∧
      passedBody ≠ notPassedBody (showingFirstText 0) :=
  ⟨rfl, by decide⟩

/-- C5 (amended): provided the cap is at least 1 (a cap of 0 or less
diverts to the clean branch instead): when the total finding count `M`
exceeds the cap `n`, exactly the first `n` findings are attached and
the top-line message indicates truncation showing `n`; when
`1 ≤ M ≤ n`, or no cap is configured and `M ≥ 1`, all `M` findings are
attached and the top-line message says `See below`. -/
theorem C5_cap :
    (∀ (n : Int) (results : List (Except PyErr (List Finding))),
        1 ≤ n → n < ((gatherComments results).length : Int) →
        do_review_writes (some n) results =
            Write.createReview (notPassedBody (showingFirstText n)) false false ::
              ((gatherComments results).take n.toNat).map Write.createComment ++
                [Write.publish] ∧
          (((gatherComments results).take n.toNat).length : Int) = n) ∧
    (∀ (n : Int) (results : List (Except PyErr (List Finding))),
        1 ≤ (gatherComments results).length → ((gatherComments results).length : Int) ≤ n →
        do_review_writes (some n) results =
            Write.createReview (notPassedBody seeBelowText) false false ::
              (gatherComments results).map Write.createComment ++ [Write.publish]) ∧
    (∀ results : List (Except PyErr (List Finding)),
        1 ≤ (gatherComments results).length →
        do_review_writes none results =
            Write.createReview (notPassedBody seeBelowText) false false ::
              (gatherComments results).map Write.createComment ++ [Write.publish]) := by
  refine ⟨?_, ?_, ?_⟩
  · intro n results hn hlt
    have hle : n.toNat ≤ (gatherComments results).length := by omega
    have hlen : ((gatherComments results).take n.toNat).length = n.toNat := by
      rw [List.length_take]
      omega
    have hne : (gatherComments results).take n.toNat ≠ [] := by
      intro h
      rw [h] at hlen
      simp at hlen
      omega
    have hshow : (((gatherComments results).take n.toNat).length : Int) = n := by
      rw [hlen]
      omega
    simp only [do_review_writes, applyLimit_pos n hn]
    rw [if_neg hne, if_pos (by omega : ((gatherComments results).take n.toNat).length <
      (gatherComments results).length)]
    exact ⟨by rw [hshow], hshow⟩
  · intro n results hM hMn
    have htake : (gatherComments results).take n.toNat = gatherComments results :=
      List.take_of_length_le (by omega)
    simp only [do_review_writes, applyLimit_pos n (by omega), htake]
    rw [if_neg (by intro h; rw [h] at hM; simp at hM), if_neg (by omega)]
  · intro results hM
    simp only [do_review_writes, applyLimit_none]
    rw [if_neg (by intro h; rw [h] at hM; simp at hM), if_neg (by omega)]

/-- C5 witness: cap 1 with two findings attaches exactly the first
finding and shows `Showing first 1 errors`; cap 5 with one finding
attaches it and shows `See below`. -/
theorem C5_cap_witness :
    (do_review_writes (some 1) [Except.ok [exFinding, exFinding]] =
        Write.createReview (notPassedBody (showingFirstText 1)) false false ::
          ((gatherComments [Except.ok [exFinding, exFinding]]).take (1 : Int).toNat).map
              Write.createComment ++ [Write.publish]) ∧
      do_review_writes (some 5) [Except.ok [exFinding]] =
        Write.createReview (notPassedBody seeBelowText) false false ::
          (gatherComments [Except.ok [exFinding]]).map Write.createComment ++ [Write.publish] :=
  ⟨(C5_cap.1 1 [Except.ok [exFinding, exFinding]] (by decide) (by decide)).1,
    C5_cap.2.1 5 [Except.ok [exFinding]] (by decide) (by decide)⟩

/-- C9: when every eligible file's analysis raises, each file
contributes zero findings, so the orchestrator submits the same single
clean "passed checks" published review as when every file lints
cleanly — total analysis failure is indistinguishable from a clean
diff at the review-server interface. -/
theorem C9_all_failed_clean (cap : Option Int)
    (results : List (Except PyErr (List Finding)))
    (h : ∀ r ∈ results, r = Except.error PyErr.indexError) :
    do_review_writes cap results = [Write.createReview passedBody true false] ∧
      do_review_writes cap results =
        do_review_writes cap (results.map fun _ => Except.ok []) := by
  have h1 := gatherComments_of_all_error results h
  exact ⟨do_review_writes_of_gather_nil cap results h1,
    (do_review_writes_of_gather_nil cap results h1).trans
      (do_review_writes_of_gather_nil cap _ (gatherComments_map_ok_nil results)).symm⟩

/-- C9 witness: one eligible file whose analysis raised. -/
theorem C9_all_failed_clean_witness :
    do_review_writes none [Except.error PyErr.indexError] =
        [Write.createReview passedBody true false] ∧
      do_review_writes none [Except.error PyErr.indexError] =
        do_review_writes none
          (([Except.error PyErr.indexError] : List (Except PyErr (List Finding))).map
            fun _ => Except.ok []) :=
  C9_all_failed_clean none [Except.error PyErr.indexError]
    (fun r hr => by simpa using hr)

/-! ## Batch coordinator -/

/-- C8: every id in the batch is attempted; the ids whose review raised
are exactly the failing ids, kept in batch order; and the single
completion message is the plain success text when none failed, else
the text listing exactly the failed ids. -/
theorem C8_batch :
    ∀ (behavior : Int → Except PyErr Unit) (ids : List Int) (nick : List Char),
      reviewLoop behavior ids =
          ids.filter (fun id => match behavior id with | .error _ => true | .ok _ => false) ∧
        (reviewLoop behavior ids = [] →
          batchMessage nick (reviewLoop behavior ids) =
            "Codereview complete ".toList ++ nick) ∧
        (reviewLoop behavior ids ≠ [] →
          batchMessage nick (reviewLoop behavior ids) =
            "Codereview complete ".toList ++ nick ++
              ", but I was unable to review: ".toList ++
              crList (reviewLoop behavior ids)) := by
  intro behavior ids nick
  refine ⟨?_, ?_, ?_⟩
  · induction ids with
    | nil => rfl
    | cons id rest ih =>
      cases hb : behavior id with
      | ok u => simp [reviewLoop, hb, List.filter_cons, ih]
      | error e => simp [reviewLoop, hb, List.filter_cons, ih]
  · intro h
    rw [h]
    rfl
  · intro h
    rcases hl : reviewLoop behavior ids with _ | ⟨e, es⟩
    · exact absurd hl h
    · simp [batchMessage]

/-- C8 witness: the batch `[1, 2, 3]` where request 2 raises records
exactly 2 as failed, processes 1 and 3 normally, and the completion
message names only `cr2`. -/
theorem C8_batch_witness :
    reviewLoop exBehavior [1, 2, 3] = [2] ∧
      batchMessage "bob".toList (reviewLoop exBehavior [1, 2, 3]) =
        "Codereview complete bob, but I was unable to review: cr2".toList := by
  have h := C8_batch exBehavior [1, 2, 3] "bob".toList
  exact ⟨h.1.trans (by decide), (h.2.2 (by decide)).trans (by decide)⟩

/-! ## Analyzer runner: the path field of an output line -/

theorem partitionChar_append_of_not_mem (c : Char) (p s : List Char) (hp : c ∉ p) :
    partitionChar c (p ++ s) =
      (p ++ (partitionChar c s).1, (partitionChar c s).2.1, (partitionChar c s).2.2) := by
  induction p with
  | nil => rfl
  | cons a p ih =>
    have ha : a ≠ c := fun h => hp (by simp [h])
    have ih' := ih (fun h => hp (List.mem_cons_of_mem a h))
    simp [partitionChar, if_neg ha, ih']

theorem splitChar_ne_nil (c : Char) (s : List Char) : splitChar c s ≠ [] := by
  induction s with
  | nil => simp [splitChar]
  | cons a t ih =>
    simp only [splitChar]
    split
    · simp
    · rcases h : splitChar c t with _ | ⟨x, xs⟩
      · exact absurd h ih
      · simp

theorem splitChar_append_cons (c : Char) (p r : List Char) (hp : c ∉ p) :
    splitChar c (p ++ c :: r) = p :: splitChar c r := by
  induction p with
  | nil => simp [splitChar]
  | cons a p ih =>
    have ha : a ≠ c := fun h => hp (by simp [h])
    have ih' := ih (fun h => hp (List.mem_cons_of_mem a h))
    simp [splitChar, if_neg ha, ih']

theorem processLine_drop_path (strict : List (List Char)) (fid : Int) (dd : DiffData)
    (p r : List Char) (hs : ' ' ∉ p) (hc : ':' ∉ p) :
    processLine strict fid dd (p ++ ':' :: r) = processLine strict fid dd (':' :: r) := by
  have hs' : ' ' ∉ p ++ [':'] := by
    intro h
    rcases List.mem_append.mp h with h | h
    · exact hs h
    · simp at h
  have h1 : partitionChar ' ' (p ++ ':' :: r) =
      ((p ++ [':']) ++ (partitionChar ' ' r).1,
        (partitionChar ' ' r).2.1, (partitionChar ' ' r).2.2) := by
    have := partitionChar_append_of_not_mem ' ' (p ++ [':']) r hs'
    simpa [List.append_assoc] using this
  have h2 : partitionChar ' ' (':' :: r) =
      (':' :: (partitionChar ' ' r).1,
        (partitionChar ' ' r).2.1, (partitionChar ' ' r).2.2) := by
    have := partitionChar_append_of_not_mem ' ' [':'] r (by simp)
    simpa using this
  have h3 : splitChar ':' ((p ++ [':']) ++ (partitionChar ' ' r).1) =
      p :: splitChar ':' (partitionChar ' ' r).1 := by
    have := splitChar_append_cons ':' p (partitionChar ' ' r).1 hc
    simpa [List.append_assoc] using this
  have h4 : splitChar ':' (':' :: (partitionChar ' ' r).1) =
      [] :: splitChar ':' (partitionChar ' ' r).1 := by
    simp [splitChar]
  simp only [processLine, h1, h2, h3, h4]
  rfl

/-- C10: the path component before the first colon of an analyzer
output line is never read: every finding built from a line is
attributed to the id of the file being analyzed, and two lines that
differ only in that leading path component (colon-free, space-free)
are processed identically — same skip/raise outcome, same parsed
line and column, same mapped coordinate, same message. -/
theorem C10_path_ignored :
    (∀ (strict : List (List Char)) (fid : Int) (dd : DiffData) (line : List Char)
        (f : Finding),
        processLine strict fid dd line = .ok (some f) → f.filediff_id = fid) ∧
    (∀ (strict : List (List Char)) (fid : Int) (dd : DiffData) (p₁ p₂ r : List Char),
        ' ' ∉ p₁ → ':' ∉ p₁ → ' ' ∉ p₂ → ':' ∉ p₂ →
        processLine strict fid dd (p₁ ++ ':' :: r) =
          processLine strict fid dd (p₂ ++ ':' :: r)) := by
  constructor
  · intro strict fid dd line f h
    simp only [processLine] at h
    split at h
    · exact absurd h (by simp)
    split at h
    · simp only [Except.ok.injEq] at h
      exact absurd h (by simp)
    split at h
    · exact absurd h (by simp)
    split at h
    · simp only [Except.ok.injEq] at h
      exact absurd h (by simp)
    simp only [Except.ok.injEq, Option.some.injEq] at h
    subst h
    rfl
  · intro strict fid dd p₁ p₂ r h1 h2 h3 h4
    rw [processLine_drop_path strict fid dd p₁ r h1 h2,
      processLine_drop_path strict fid dd p₂ r h3 h4]

/-- C10 witness: the finding parsed from `x.py:3:1: E1 m` for file 7 is
attributed to file 7, and replacing the path prefix `a` by `zzz` leaves
the processing of a line unchanged. -/
theorem C10_path_ignored_witness :
    ((⟨7, 3, 1, "Column 1: E1 m".toList, false⟩ : Finding).filediff_id = 7) ∧
      processLine [] 7 ⟨[]⟩ ("a".toList ++ ':' :: "3:1: E1 m".toList) =
        processLine [] 7 ⟨[]⟩ ("zzz".toList ++ ':' :: "3:1: E1 m".toList) :=
  ⟨C10_path_ignored.1 [] 7 ⟨[]⟩ "x.py:3:1: E1 m".toList
      ⟨7, 3, 1, "Column 1: E1 m".toList, false⟩ rfl,
    C10_path_ignored.2 [] 7 ⟨[]⟩ "a".toList "zzz".toList "3:1: E1 m".toList
      (by decide) (by decide) (by decide) (by decide)⟩

end Helga
